import Mathlib

/-!
Verification of the VixenLanguage AST printer (`src/parser/ast.rs`,
`src/parser/ast_printer.rs`).

The data model and printing functions below are a shallow embedding of the
Rust source.  The printer's mutable `indent` field is threaded explicitly as
part of an `ASTPrinter` state record; the `incs`/`decs` fields instrument the
`self.indent += 1` / `self.indent -= 1` operations so that the depth-symmetry
property can be stated (they are never read by the printing logic itself).
-/

namespace Vixen

/-! ### ANSI constants and the fmt_indent macro -/

/-- The escape sequence `ANSI_GRAY` from `ast_printer.rs`. -/
def ANSI_GRAY : String := "\x1b[90m"

/-- The escape sequence `ANSI_BOLD` from `ast_printer.rs`. -/
def ANSI_BOLD : String := "\x1b[1m"

/-- The escape sequence `ANSI_RESET` from `ast_printer.rs`. -/
def ANSI_RESET : String := "\x1b[0m"

/-- The indentation guide: the token `"|  "` pushed once per indent level
(the `for _ in 0..self.indent` loop of the `fmt_indent!` macro). -/
def guides : Nat → String
  | 0 => ""
  | n + 1 => "|  " ++ guides n

/-- Rust's `val.splitn(2, ':')`: the characters before the first colon,
and, when a colon is present, the characters after it. -/
def splitFirstColon : List Char → List Char × Option (List Char)
  | [] => ([], none)
  | c :: cs =>
      if c = ':' then ([], some cs)
      else
        let r := splitFirstColon cs
        (c :: r.1, r.2)

/-- The `fmt_indent!` macro of `ast_printer.rs`: gray indentation guides,
then the formatted value with everything before its first colon in bold. -/
def fmt_indent (indent : Nat) (val : String) : String :=
  let sp := splitFirstColon val.data
  ANSI_GRAY ++ guides indent ++ ANSI_RESET ++ ANSI_BOLD ++ String.mk sp.1 ++ ANSI_RESET ++
    (match sp.2 with
     | some rest => ":" ++ String.mk rest
     | none => "")

/-! ### The AST model (`ast.rs`) -/

/-- The `ExpressionId` tuple struct (a `u32`; its value is never printed,
so overflow behaviour is irrelevant and `Nat` models it). -/
structure ExpressionId where
  id : Nat

inductive VariableMutability where
  | Mutable
  | Immutable

inductive BinaryOperator where
  | Add
  | Subtract
  | Multiply
  | Divide
  | Modulus
  | And
  | Or
  | Equal
  | NotEqual
  | LessThan
  | GreaterThan
  | LessThanOrEqual
  | GreaterThanOrEqual

/-- The `Display` impl for `BinaryOperator`. -/
def BinaryOperator.display : BinaryOperator → String
  | .Add => "+"
  | .Subtract => "-"
  | .Multiply => "*"
  | .Divide => "/"
  | .Modulus => "%"
  | .And => "&&"
  | .Or => "||"
  | .Equal => "=="
  | .NotEqual => "!="
  | .LessThan => "<"
  | .GreaterThan => ">"
  | .LessThanOrEqual => "<="
  | .GreaterThanOrEqual => ">="

inductive UnaryOperator where
  | Negate
  | Not

/-- The `Display` impl for `UnaryOperator`. -/
def UnaryOperator.display : UnaryOperator → String
  | .Negate => "-"
  | .Not => "!"

/-- Rust's `Type` enum (named `Ty` because `Type` is a Lean sort). -/
inductive Ty where
  | U8
  | U16
  | U32
  | U64
  | I8
  | I16
  | I32
  | I64
  | F32
  | F64
  | Boolean
  | Character
  | Identifier (name : String) (generics : List Ty)
  | Function (params : List Ty) (return_type : Ty)
  | Array (of : Ty)
  | Nil

structure FunctionParameter where
  name : String
  param_type : Ty

mutual

inductive Expression where
  | Block (statements : List Statement)
  | NumberLiteral (value : Float)
  | StringLiteral (value : String)
  | CharLiteral (value : Char)
  | Variable (name : String) (expression_id : ExpressionId)
  | BooleanLiteral (value : Bool)
  | FunctionCall (callee : Expression) (args : List Expression)
  | BinaryOperation (left : Expression) (operator : BinaryOperator) (right : Expression)
  | UnaryOperation (operator : UnaryOperator) (operand : Expression)
  | Assignment (name : String) (value : Expression) (expression_id : ExpressionId)
  | MemberAccess (object : Expression) (member : String)
  | Array (array_type : Ty) (size : Expression) (initial_value : Expression)
  | StructCreation (struct_type : Ty) (fields : List (String × Expression))
  | If (condition : Expression) (then_branch : Expression) (else_branch : Option Expression)
  | Loop (loop_type : LoopType)

inductive LoopType where
  | While (condition : Expression) (body : Expression)
  | Infinite (body : Expression)
  | Iterator (mutability : VariableMutability) (iterator : String)
      (iterable : Expression) (body : Expression)

inductive Declaration where
  | Function (name : String) (params : List FunctionParameter) (generic_args : List String)
      (return_type : Ty) (body : Expression)
  | Struct (name : String) (elements : List StructElement) (generic_args : List String)
  | TypeDeclaration (name : String) (generic_args : List String) (alias_ : Ty)
  | Import (path : List String)

inductive StructElement where
  | Declaration (declaration : Declaration)
  | Field (name : String) (field_type : Ty)

inductive Statement where
  | Declaration (declaration : Declaration)
  | Expression (expression : Expression) (result : Bool)
  | VariableDeclaration (mutability : VariableMutability) (name : String)
      (variable_type : Ty) (value : Expression)
  | Break
  | Continue
  | Return (value : Option Expression)

end

structure Program where
  declarations : List Declaration

/-- Rendering of `VariableMutability` as it appears in the printer's two
`match mutability` expressions. -/
def VariableMutability.display : VariableMutability → String
  | .Mutable => "Mutable"
  | .Immutable => "Immutable"

/-! ### The printer state (`struct ASTPrinter`) -/

/-- The printer: the `indent` field of the Rust struct, plus two
instrumentation counters recording how many times `indent` was incremented
and decremented.  The counters are write-only for the printing logic. -/
structure ASTPrinter where
  indent : Nat
  incs : Nat
  decs : Nat

/-- Models `self.indent += 1`. -/
def incIndent (p : ASTPrinter) : ASTPrinter :=
  { p with indent := p.indent + 1, incs := p.incs + 1 }

/-- Models `self.indent -= 1` (a `usize` subtraction; every occurrence in the
source runs at a positive indent, so truncation never fires). -/
def decIndent (p : ASTPrinter) : ASTPrinter :=
  { p with indent := p.indent - 1, decs := p.decs + 1 }

/-! ### print_type -/

mutual

/-- The `print_type` method of `ASTPrinter`. -/
def print_type (p : ASTPrinter) (ty : Ty) : String × ASTPrinter :=
  match ty with
  | .Boolean => ("Boolean", p)
  | .Character => ("Character", p)
  | .F32 => ("F32", p)
  | .F64 => ("F64", p)
  | .I8 => ("I8", p)
  | .I16 => ("I16", p)
  | .I32 => ("I32", p)
  | .I64 => ("I64", p)
  | .U8 => ("U8", p)
  | .U16 => ("U16", p)
  | .U32 => ("U32", p)
  | .U64 => ("U64", p)
  | .Nil => ("Nil", p)
  | .Identifier name generics =>
      match generics with
      | [] => (name, p)
      | g :: rest =>
          let r := print_type_list p (g :: rest)
          (name ++ "<" ++ String.intercalate ", " r.1 ++ ">", r.2)
  | .Array of =>
      let line := fmt_indent p.indent "Array of "
      let r := print_type (incIndent p) of
      ("\n" ++ line ++ r.1, decIndent r.2)
  | .Function params return_type =>
      let out0 := fmt_indent p.indent "Function:\n"
      let p1 := incIndent p
      let outP := fmt_indent p1.indent "Parameters:\n"
      let rps := print_type_params p1 params
      let rrt := print_type rps.2 return_type
      let rline := fmt_indent rps.2.indent ("Return Type: " ++ rrt.1 ++ "\n")
      (out0 ++ outP ++ rps.1 ++ rline, decIndent rrt.2)

/-- The `generic_args.iter().map(|arg| self.print_type(arg))` traversal in the
`Type::Identifier` case. -/
def print_type_list (p : ASTPrinter) (tys : List Ty) : List String × ASTPrinter :=
  match tys with
  | [] => ([], p)
  | t :: rest =>
      let r := print_type p t
      let rr := print_type_list r.2 rest
      (r.1 :: rr.1, rr.2)

/-- The `for param in params` loop in the `Type::Function` case. -/
def print_type_params (p : ASTPrinter) (tys : List Ty) : String × ASTPrinter :=
  match tys with
  | [] => ("", p)
  | t :: rest =>
      let r := print_type p t
      let line := fmt_indent p.indent ("- " ++ r.1 ++ "\n")
      let rr := print_type_params r.2 rest
      (line ++ rr.1, rr.2)

end

/-! ### print_declaration / print_expression / print_statement -/

/-- The `for arg in generic_args` loop in the `Declaration::TypeDeclaration`
case (it never touches the printer state). -/
def generic_arg_lines (ind : Nat) : List String → String
  | [] => ""
  | arg :: rest => fmt_indent ind ("- " ++ arg ++ "\n") ++ generic_arg_lines ind rest

mutual

/-- The `print_declaration` method of `ASTPrinter`. -/
def print_declaration (p : ASTPrinter) (declaration : Declaration) : String × ASTPrinter :=
  match declaration with
  | .Function name params _generic_args return_type body =>
      let out0 := fmt_indent p.indent ("Function: " ++ name ++ "\n")
      let p1 := incIndent p
      let out1 := fmt_indent p1.indent "Parameters:\n"
      let rps := print_params p1 params
      let rrt := print_type rps.2 return_type
      let out2 := fmt_indent rps.2.indent ("Return Type: " ++ rrt.1 ++ "\n")
      let out3 := fmt_indent rrt.2.indent "Body: "
      let rb := print_expression rrt.2 body
      (out0 ++ out1 ++ rps.1 ++ out2 ++ out3 ++ rb.1, decIndent rb.2)
  | .Import path =>
      (fmt_indent p.indent ("Import: " ++ String.intercalate "." path ++ "\n"), p)
  | .Struct name elements _generic_args =>
      let out0 := fmt_indent p.indent ("Struct: " ++ name ++ "\n")
      let p1 := incIndent p
      let out1 := fmt_indent p1.indent "Elements:\n"
      let re := print_struct_elements p1 elements
      (out0 ++ out1 ++ re.1, decIndent re.2)
  | .TypeDeclaration name generic_args alias_ =>
      let out0 := fmt_indent p.indent ("Type Declaration: " ++ name ++ "\n")
      let p1 := incIndent p
      let ra := print_type p1 alias_
      let aline := fmt_indent p1.indent ("Alias: " ++ ra.1 ++ "\n")
      let gout :=
        if generic_args.isEmpty then ""
        else
          fmt_indent ra.2.indent "Generic Arguments:\n" ++
            generic_arg_lines ra.2.indent generic_args
      (out0 ++ aline ++ gout, decIndent ra.2)

/-- The `for param in params` loop in the `Declaration::Function` case. -/
def print_params (p : ASTPrinter) (params : List FunctionParameter) : String × ASTPrinter :=
  match params with
  | [] => ("", p)
  | q :: rest =>
      let r := print_type p q.param_type
      let line := fmt_indent p.indent ("- " ++ q.name ++ ": " ++ r.1 ++ "\n")
      let rr := print_params r.2 rest
      (line ++ rr.1, rr.2)

/-- The `for declaration in &program.declarations` loop of `print_program`. -/
def print_declarations (p : ASTPrinter) (declarations : List Declaration) : String × ASTPrinter :=
  match declarations with
  | [] => ("", p)
  | d :: rest =>
      let r := print_declaration p d
      let rr := print_declarations r.2 rest
      (r.1 ++ rr.1, rr.2)

/-- The `for element in elements` loop in the `Declaration::Struct` case. -/
def print_struct_elements (p : ASTPrinter) (elements : List StructElement) : String × ASTPrinter :=
  match elements with
  | [] => ("", p)
  | .Field name field_type :: rest =>
      let r := print_type p field_type
      let line := fmt_indent p.indent ("- " ++ name ++ ": " ++ r.1 ++ "\n")
      let rr := print_struct_elements r.2 rest
      (line ++ rr.1, rr.2)
  | .Declaration d :: rest =>
      let r := print_declaration p d
      let rr := print_struct_elements r.2 rest
      (r.1 ++ rr.1, rr.2)

/-- The `print_expression` method of `ASTPrinter`. -/
def print_expression (p : ASTPrinter) (expression : Expression) : String × ASTPrinter :=
  match expression with
  | .Assignment name value _expression_id =>
      let out0 := fmt_indent p.indent "Assignment:\n"
      let p1 := incIndent p
      let out1 := fmt_indent p1.indent ("Variable: " ++ name ++ "\n")
      let out2 := fmt_indent p1.indent "Value:\n"
      let rv := print_expression p1 value
      (out0 ++ out1 ++ out2 ++ rv.1, decIndent rv.2)
  | .BinaryOperation left operator right =>
      let out0 := fmt_indent p.indent ("Binary Operation: " ++ operator.display ++ "\n")
      let p1 := incIndent p
      let outL := fmt_indent p1.indent "Left:\n"
      let rl := print_expression p1 left
      let outR := fmt_indent rl.2.indent "Right:\n"
      let rr := print_expression rl.2 right
      (out0 ++ outL ++ rl.1 ++ outR ++ rr.1, decIndent rr.2)
  | .UnaryOperation operator operand =>
      let out0 := fmt_indent p.indent ("Unary Operation: " ++ operator.display ++ "\n")
      let p1 := incIndent p
      let outO := fmt_indent p1.indent "Operand:\n"
      let ro := print_expression p1 operand
      (out0 ++ outO ++ ro.1, decIndent ro.2)
  | .Block statements =>
      let out0 := fmt_indent p.indent "Block:\n"
      let p1 := incIndent p
      let rs := print_statements p1 statements
      (out0 ++ rs.1, decIndent rs.2)
  | .BooleanLiteral value =>
      (fmt_indent p.indent ("Boolean Literal: " ++ toString value ++ "\n"), p)
  | .CharLiteral value =>
      (fmt_indent p.indent ("Character Literal: " ++ String.singleton value ++ "\n"), p)
  | .NumberLiteral value =>
      (fmt_indent p.indent ("Number Literal: " ++ toString value ++ "\n"), p)
  | .StringLiteral value =>
      (fmt_indent p.indent ("String Literal: " ++ value ++ "\n"), p)
  | .FunctionCall callee args =>
      let out0 := fmt_indent p.indent "Function Call\n"
      let p1 := incIndent p
      let outC := fmt_indent p1.indent "Callee:\n"
      let rc := print_expression p1 callee
      let outA := fmt_indent rc.2.indent "Arguments:\n"
      let ra := print_expressions rc.2 args
      (out0 ++ outC ++ rc.1 ++ outA ++ ra.1, decIndent ra.2)
  | .Variable name _expression_id =>
      (fmt_indent p.indent ("Variable: " ++ name ++ "\n"), p)
  | .If condition then_branch else_branch =>
      let out0 := fmt_indent p.indent "If Statement:\n"
      let p1 := incIndent p
      let outC := fmt_indent p1.indent "Condition:\n"
      let rc := print_expression p1 condition
      let outT := fmt_indent rc.2.indent "Then Branch:\n"
      let rt := print_expression rc.2 then_branch
      match else_branch with
      | some eb =>
          let outE := fmt_indent rt.2.indent "Else Branch:\n"
          let re := print_expression rt.2 eb
          (out0 ++ outC ++ rc.1 ++ outT ++ rt.1 ++ outE ++ re.1, decIndent re.2)
      | none =>
          (out0 ++ outC ++ rc.1 ++ outT ++ rt.1, decIndent rt.2)
  | .Loop (.Infinite body) =>
      let out0 := fmt_indent p.indent "Infinite Loop:\n"
      let p1 := incIndent p
      let rb := print_expression p1 body
      (out0 ++ rb.1, decIndent rb.2)
  | .Loop (.While condition body) =>
      let out0 := fmt_indent p.indent "While Loop:\n"
      let p1 := incIndent p
      let outC := fmt_indent p1.indent "Condition:\n"
      let rc := print_expression p1 condition
      let outB := fmt_indent rc.2.indent "Body: "
      let rb := print_expression rc.2 body
      (out0 ++ outC ++ rc.1 ++ outB ++ rb.1, decIndent rb.2)
  | .Loop (.Iterator mutability iterator iterable body) =>
      let out0 := fmt_indent p.indent "Iterator Loop:\n"
      let p1 := incIndent p
      let outM := fmt_indent p1.indent ("Mutability: " ++ mutability.display ++ "\n")
      let outI := fmt_indent p1.indent ("Iterator: " ++ iterator ++ "\n")
      let outArg := fmt_indent p1.indent "Iterable:\n"
      let ri := print_expression p1 iterable
      let outB := fmt_indent ri.2.indent "Body: "
      let rb := print_expression ri.2 body
      (out0 ++ outM ++ outI ++ outArg ++ ri.1 ++ outB ++ rb.1, decIndent rb.2)
  | .MemberAccess object member =>
      let out0 := fmt_indent p.indent "Member Access:\n"
      let p1 := incIndent p
      let outO := fmt_indent p1.indent "Object:\n"
      let ro := print_expression p1 object
      let outM := fmt_indent ro.2.indent ("Member: " ++ member ++ "\n")
      (out0 ++ outO ++ ro.1 ++ outM, decIndent ro.2)
  | .Array array_type size initial_value =>
      let out0 := fmt_indent p.indent "Array:\n"
      let p1 := incIndent p
      let rt := print_type p1 array_type
      let tline := fmt_indent p1.indent ("Type: " ++ rt.1 ++ "\n")
      let outS := fmt_indent rt.2.indent "Size:\n"
      let rs := print_expression rt.2 size
      let outI := fmt_indent rs.2.indent "Initial Value:\n"
      let ri := print_expression rs.2 initial_value
      (out0 ++ tline ++ outS ++ rs.1 ++ outI ++ ri.1, decIndent ri.2)
  | .StructCreation struct_type fields =>
      let out0 := fmt_indent p.indent "Struct Creation:\n"
      let p1 := incIndent p
      let rt := print_type p1 struct_type
      let tline := fmt_indent p1.indent ("Type: " ++ rt.1 ++ "\n")
      let outF := fmt_indent rt.2.indent "Fields:\n"
      let rf := print_fields rt.2 fields
      (out0 ++ tline ++ outF ++ rf.1, decIndent rf.2)

/-- The `for arg in args` loop in the `Expression::FunctionCall` case. -/
def print_expressions (p : ASTPrinter) (args : List Expression) : String × ASTPrinter :=
  match args with
  | [] => ("", p)
  | e :: rest =>
      let r := print_expression p e
      let rr := print_expressions r.2 rest
      (r.1 ++ rr.1, rr.2)

/-- The `for (name, value) in fields` loop in the `Expression::StructCreation` case. -/
def print_fields (p : ASTPrinter) (fields : List (String × Expression)) : String × ASTPrinter :=
  match fields with
  | [] => ("", p)
  | (name, value) :: rest =>
      let line := fmt_indent p.indent (name ++ ":\n")
      let p1 := incIndent p
      let rv := print_expression p1 value
      let p2 := decIndent rv.2
      let rr := print_fields p2 rest
      (line ++ rv.1 ++ rr.1, rr.2)

/-- The `print_statement` method of `ASTPrinter`. -/
def print_statement (p : ASTPrinter) (statement : Statement) : String × ASTPrinter :=
  match statement with
  | .Declaration declaration => print_declaration p declaration
  | .Break => (fmt_indent p.indent "Break\n", p)
  | .Continue => (fmt_indent p.indent "Continue\n", p)
  | .Expression expression result =>
      let out0 := fmt_indent p.indent "Expression:\n"
      let p1 := incIndent p
      let re := print_expression p1 expression
      let rout := if result then fmt_indent re.2.indent "Result: true\n" else ""
      (out0 ++ re.1 ++ rout, decIndent re.2)
  | .Return value =>
      let out0 := fmt_indent p.indent "Return:\n"
      let p1 := incIndent p
      match value with
      | some v =>
          let rv := print_expression p1 v
          (out0 ++ rv.1, decIndent rv.2)
      | none =>
          (out0 ++ fmt_indent p1.indent "No value\n", decIndent p1)
  | .VariableDeclaration mutability name variable_type value =>
      let out0 := fmt_indent p.indent ("Variable Declaration: " ++ name ++ "\n")
      let p1 := incIndent p
      let outM := fmt_indent p1.indent ("Mutability: " ++ mutability.display ++ "\n")
      let rt := print_type p1 variable_type
      let tline := fmt_indent p1.indent ("Type: " ++ rt.1 ++ "\n")
      let outV := fmt_indent rt.2.indent "Value:\n"
      let rv := print_expression rt.2 value
      (out0 ++ outM ++ tline ++ outV ++ rv.1, decIndent rv.2)

/-- The `for statement in statements` loop in the `Expression::Block` case. -/
def print_statements (p : ASTPrinter) (statements : List Statement) : String × ASTPrinter :=
  match statements with
  | [] => ("", p)
  | s :: rest =>
      let r := print_statement p s
      let rr := print_statements r.2 rest
      (r.1 ++ rr.1, rr.2)

end

/-- The public `print_program` method: resets `indent` to zero, then prints
every declaration in order. -/
def print_program (p : ASTPrinter) (program : Program) : String × ASTPrinter :=
  print_declarations { p with indent := 0 } program.declarations

end Vixen

namespace Vixen

/-! ### State lemmas: the printer's indent is restored by every call, and
increments and decrements stay in balance. -/

mutual

theorem print_type_state (p : ASTPrinter) (ty : Ty) :
    (print_type p ty).2.indent = p.indent ∧
      (print_type p ty).2.incs + p.decs = (print_type p ty).2.decs + p.incs := by
  cases ty
  case Identifier name generics =>
      cases generics with
      | nil => simp only [print_type]; exact ⟨by trivial, by omega⟩
      | cons g rest =>
          have h := print_type_list_state p (g :: rest)
          simp only [print_type]
          exact h
  case Array of =>
      have h := print_type_state (incIndent p) of
      simp only [print_type, incIndent, decIndent] at h ⊢
      exact ⟨by omega, by omega⟩
  case Function params return_type =>
      have h1 := print_type_params_state (incIndent p) params
      have h2 := print_type_state (print_type_params (incIndent p) params).2 return_type
      simp only [print_type, incIndent, decIndent] at h1 h2 ⊢
      exact ⟨by omega, by omega⟩
  all_goals simp only [print_type]; exact ⟨by trivial, by omega⟩

theorem print_type_list_state (p : ASTPrinter) (tys : List Ty) :
    (print_type_list p tys).2.indent = p.indent ∧
      (print_type_list p tys).2.incs + p.decs = (print_type_list p tys).2.decs + p.incs := by
  cases tys with
  | nil => simp only [print_type_list]; exact ⟨by trivial, by omega⟩
  | cons t rest =>
      have h1 := print_type_state p t
      have h2 := print_type_list_state (print_type p t).2 rest
      simp only [print_type_list] at h2 ⊢
      exact ⟨by omega, by omega⟩

theorem print_type_params_state (p : ASTPrinter) (tys : List Ty) :
    (print_type_params p tys).2.indent = p.indent ∧
      (print_type_params p tys).2.incs + p.decs = (print_type_params p tys).2.decs + p.incs := by
  cases tys with
  | nil => simp only [print_type_params]; exact ⟨by trivial, by omega⟩
  | cons t rest =>
      have h1 := print_type_state p t
      have h2 := print_type_params_state (print_type p t).2 rest
      simp only [print_type_params] at h2 ⊢
      exact ⟨by omega, by omega⟩

end

end Vixen

namespace Vixen

mutual

theorem print_declaration_state (p : ASTPrinter) (d : Declaration) :
    (print_declaration p d).2.indent = p.indent ∧
      (print_declaration p d).2.incs + p.decs = (print_declaration p d).2.decs + p.incs := by
  cases d with
  | Function name params generic_args return_type body =>
      have h1 := print_params_state (incIndent p) params
      have h2 := print_type_state (print_params (incIndent p) params).2 return_type
      have h3 := print_expression_state
        (print_type (print_params (incIndent p) params).2 return_type).2 body
      simp only [print_declaration, incIndent, decIndent] at h1 h2 h3 ⊢
      exact ⟨by omega, by omega⟩
  | Import path => simp only [print_declaration]; exact ⟨by trivial, by omega⟩
  | Struct name elements generic_args =>
      have h1 := print_struct_elements_state (incIndent p) elements
      simp only [print_declaration, incIndent, decIndent] at h1 ⊢
      exact ⟨by omega, by omega⟩
  | TypeDeclaration name generic_args alias_ =>
      have h1 := print_type_state (incIndent p) alias_
      simp only [print_declaration, incIndent, decIndent] at h1 ⊢
      exact ⟨by omega, by omega⟩

theorem print_params_state (p : ASTPrinter) (params : List FunctionParameter) :
    (print_params p params).2.indent = p.indent ∧
      (print_params p params).2.incs + p.decs = (print_params p params).2.decs + p.incs := by
  cases params with
  | nil => simp only [print_params]; exact ⟨by trivial, by omega⟩
  | cons q rest =>
      have h1 := print_type_state p q.param_type
      have h2 := print_params_state (print_type p q.param_type).2 rest
      simp only [print_params] at h2 ⊢
      exact ⟨by omega, by omega⟩

theorem print_declarations_state (p : ASTPrinter) (ds : List Declaration) :
    (print_declarations p ds).2.indent = p.indent ∧
      (print_declarations p ds).2.incs + p.decs = (print_declarations p ds).2.decs + p.incs := by
  cases ds with
  | nil => simp only [print_declarations]; exact ⟨by trivial, by omega⟩
  | cons d rest =>
      have h1 := print_declaration_state p d
      have h2 := print_declarations_state (print_declaration p d).2 rest
      simp only [print_declarations] at h2 ⊢
      exact ⟨by omega, by omega⟩

theorem print_struct_elements_state (p : ASTPrinter) (es : List StructElement) :
    (print_struct_elements p es).2.indent = p.indent ∧
      (print_struct_elements p es).2.incs + p.decs =
        (print_struct_elements p es).2.decs + p.incs := by
  cases es with
  | nil => simp only [print_struct_elements]; exact ⟨by trivial, by omega⟩
  | cons e rest =>
      cases e with
      | Field name field_type =>
          have h1 := print_type_state p field_type
          have h2 := print_struct_elements_state (print_type p field_type).2 rest
          simp only [print_struct_elements] at h2 ⊢
          exact ⟨by omega, by omega⟩
      | Declaration d =>
          have h1 := print_declaration_state p d
          have h2 := print_struct_elements_state (print_declaration p d).2 rest
          simp only [print_struct_elements] at h2 ⊢
          exact ⟨by omega, by omega⟩

theorem print_expression_state (p : ASTPrinter) (e : Expression) :
    (print_expression p e).2.indent = p.indent ∧
      (print_expression p e).2.incs + p.decs = (print_expression p e).2.decs + p.incs := by
  cases e with
  | Block statements =>
      have h1 := print_statements_state (incIndent p) statements
      simp only [print_expression, incIndent, decIndent] at h1 ⊢
      exact ⟨by omega, by omega⟩
  | NumberLiteral value => simp only [print_expression]; exact ⟨by trivial, by omega⟩
  | StringLiteral value => simp only [print_expression]; exact ⟨by trivial, by omega⟩
  | CharLiteral value => simp only [print_expression]; exact ⟨by trivial, by omega⟩
  | Variable name expression_id => simp only [print_expression]; exact ⟨by trivial, by omega⟩
  | BooleanLiteral value => simp only [print_expression]; exact ⟨by trivial, by omega⟩
  | FunctionCall callee args =>
      have h1 := print_expression_state (incIndent p) callee
      have h2 := print_expressions_state (print_expression (incIndent p) callee).2 args
      simp only [print_expression, incIndent, decIndent] at h1 h2 ⊢
      exact ⟨by omega, by omega⟩
  | BinaryOperation left operator right =>
      have h1 := print_expression_state (incIndent p) left
      have h2 := print_expression_state (print_expression (incIndent p) left).2 right
      simp only [print_expression, incIndent, decIndent] at h1 h2 ⊢
      exact ⟨by omega, by omega⟩
  | UnaryOperation operator operand =>
      have h1 := print_expression_state (incIndent p) operand
      simp only [print_expression, incIndent, decIndent] at h1 ⊢
      exact ⟨by omega, by omega⟩
  | Assignment name value expression_id =>
      have h1 := print_expression_state (incIndent p) value
      simp only [print_expression, incIndent, decIndent] at h1 ⊢
      exact ⟨by omega, by omega⟩
  | MemberAccess object member =>
      have h1 := print_expression_state (incIndent p) object
      simp only [print_expression, incIndent, decIndent] at h1 ⊢
      exact ⟨by omega, by omega⟩
  | Array array_type size initial_value =>
      have h1 := print_type_state (incIndent p) array_type
      have h2 := print_expression_state (print_type (incIndent p) array_type).2 size
      have h3 := print_expression_state
        (print_expression (print_type (incIndent p) array_type).2 size).2 initial_value
      simp only [print_expression, incIndent, decIndent] at h1 h2 h3 ⊢
      exact ⟨by omega, by omega⟩
  | StructCreation struct_type fields =>
      have h1 := print_type_state (incIndent p) struct_type
      have h2 := print_fields_state (print_type (incIndent p) struct_type).2 fields
      simp only [print_expression, incIndent, decIndent] at h1 h2 ⊢
      exact ⟨by omega, by omega⟩
  | If condition then_branch else_branch =>
      cases else_branch with
      | some eb =>
          have h1 := print_expression_state (incIndent p) condition
          have h2 := print_expression_state (print_expression (incIndent p) condition).2 then_branch
          have h3 := print_expression_state
            (print_expression (print_expression (incIndent p) condition).2 then_branch).2 eb
          simp only [print_expression, incIndent, decIndent] at h1 h2 h3 ⊢
          exact ⟨by omega, by omega⟩
      | none =>
          have h1 := print_expression_state (incIndent p) condition
          have h2 := print_expression_state (print_expression (incIndent p) condition).2 then_branch
          simp only [print_expression, incIndent, decIndent] at h1 h2 ⊢
          exact ⟨by omega, by omega⟩
  | Loop loop_type =>
      cases loop_type with
      | While condition body =>
          have h1 := print_expression_state (incIndent p) condition
          have h2 := print_expression_state (print_expression (incIndent p) condition).2 body
          simp only [print_expression, incIndent, decIndent] at h1 h2 ⊢
          exact ⟨by omega, by omega⟩
      | Infinite body =>
          have h1 := print_expression_state (incIndent p) body
          simp only [print_expression, incIndent, decIndent] at h1 ⊢
          exact ⟨by omega, by omega⟩
      | Iterator mutability iterator iterable body =>
          have h1 := print_expression_state (incIndent p) iterable
          have h2 := print_expression_state (print_expression (incIndent p) iterable).2 body
          simp only [print_expression, incIndent, decIndent] at h1 h2 ⊢
          exact ⟨by omega, by omega⟩

theorem print_expressions_state (p : ASTPrinter) (es : List Expression) :
    (print_expressions p es).2.indent = p.indent ∧
      (print_expressions p es).2.incs + p.decs = (print_expressions p es).2.decs + p.incs := by
  cases es with
  | nil => simp only [print_expressions]; exact ⟨by trivial, by omega⟩
  | cons e rest =>
      have h1 := print_expression_state p e
      have h2 := print_expressions_state (print_expression p e).2 rest
      simp only [print_expressions] at h2 ⊢
      exact ⟨by omega, by omega⟩

theorem print_fields_state (p : ASTPrinter) (fs : List (String × Expression)) :
    (print_fields p fs).2.indent = p.indent ∧
      (print_fields p fs).2.incs + p.decs = (print_fields p fs).2.decs + p.incs := by
  cases fs with
  | nil => simp only [print_fields]; exact ⟨by trivial, by omega⟩
  | cons f rest =>
      obtain ⟨name, value⟩ := f
      have h1 := print_expression_state (incIndent p) value
      have h2 := print_fields_state (decIndent (print_expression (incIndent p) value).2) rest
      simp only [print_fields, incIndent, decIndent] at h1 h2 ⊢
      exact ⟨by omega, by omega⟩

theorem print_statement_state (p : ASTPrinter) (s : Statement) :
    (print_statement p s).2.indent = p.indent ∧
      (print_statement p s).2.incs + p.decs = (print_statement p s).2.decs + p.incs := by
  cases s with
  | Declaration declaration =>
      have h1 := print_declaration_state p declaration
      simp only [print_statement] at h1 ⊢
      exact h1
  | Break => simp only [print_statement]; exact ⟨by trivial, by omega⟩
  | Continue => simp only [print_statement]; exact ⟨by trivial, by omega⟩
  | Expression expression result =>
      have h1 := print_expression_state (incIndent p) expression
      simp only [print_statement, incIndent, decIndent] at h1 ⊢
      exact ⟨by omega, by omega⟩
  | Return value =>
      cases value with
      | some v =>
          have h1 := print_expression_state (incIndent p) v
          simp only [print_statement, incIndent, decIndent] at h1 ⊢
          exact ⟨by omega, by omega⟩
      | none =>
          simp only [print_statement, incIndent, decIndent]
          exact ⟨by omega, by omega⟩
  | VariableDeclaration mutability name variable_type value =>
      have h1 := print_type_state (incIndent p) variable_type
      have h2 := print_expression_state (print_type (incIndent p) variable_type).2 value
      simp only [print_statement, incIndent, decIndent] at h1 h2 ⊢
      exact ⟨by omega, by omega⟩

theorem print_statements_state (p : ASTPrinter) (ss : List Statement) :
    (print_statements p ss).2.indent = p.indent ∧
      (print_statements p ss).2.incs + p.decs = (print_statements p ss).2.decs + p.incs := by
  cases ss with
  | nil => simp only [print_statements]; exact ⟨by trivial, by omega⟩
  | cons s rest =>
      have h1 := print_statement_state p s
      have h2 := print_statements_state (print_statement p s).2 rest
      simp only [print_statements] at h2 ⊢
      exact ⟨by omega, by omega⟩

end

end Vixen

namespace Vixen

/-! ### Congruence lemmas: the rendered string depends on the printer state
only through its indent field. -/

mutual

theorem print_type_congr (ty : Ty) (p q : ASTPrinter) (h : p.indent = q.indent) :
    (print_type p ty).1 = (print_type q ty).1 := by
  cases ty
  case Identifier name generics =>
      cases generics with
      | nil => simp only [print_type]
      | cons g rest =>
          simp only [print_type]
          rw [print_type_list_congr (g :: rest) p q h]
  case Array of =>
      have hi : (incIndent p).indent = (incIndent q).indent := by simp [incIndent, h]
      simp only [print_type]
      rw [h, print_type_congr of (incIndent p) (incIndent q) hi]
  case Function params return_type =>
      have hi : (incIndent p).indent = (incIndent q).indent := by simp [incIndent, h]
      have hP := print_type_params_congr params (incIndent p) (incIndent q) hi
      have hPi : (print_type_params (incIndent p) params).2.indent =
          (print_type_params (incIndent q) params).2.indent := by
        rw [(print_type_params_state (incIndent p) params).1,
          (print_type_params_state (incIndent q) params).1, hi]
      have hR := print_type_congr return_type
        (print_type_params (incIndent p) params).2 (print_type_params (incIndent q) params).2 hPi
      simp only [print_type]
      rw [h, hi, hP, hR, hPi]
  all_goals simp only [print_type]

theorem print_type_list_congr (tys : List Ty) (p q : ASTPrinter) (h : p.indent = q.indent) :
    (print_type_list p tys).1 = (print_type_list q tys).1 := by
  cases tys with
  | nil => simp only [print_type_list]
  | cons t rest =>
      have h1 := print_type_congr t p q h
      have hti : (print_type p t).2.indent = (print_type q t).2.indent := by
        rw [(print_type_state p t).1, (print_type_state q t).1, h]
      have h2 := print_type_list_congr rest (print_type p t).2 (print_type q t).2 hti
      simp only [print_type_list]
      rw [h1, h2]

theorem print_type_params_congr (tys : List Ty) (p q : ASTPrinter) (h : p.indent = q.indent) :
    (print_type_params p tys).1 = (print_type_params q tys).1 := by
  cases tys with
  | nil => simp only [print_type_params]
  | cons t rest =>
      have h1 := print_type_congr t p q h
      have hti : (print_type p t).2.indent = (print_type q t).2.indent := by
        rw [(print_type_state p t).1, (print_type_state q t).1, h]
      have h2 := print_type_params_congr rest (print_type p t).2 (print_type q t).2 hti
      simp only [print_type_params]
      rw [h, h1, h2]

end

end Vixen

namespace Vixen

mutual

theorem print_declaration_congr (d : Declaration) (p q : ASTPrinter) (h : p.indent = q.indent) :
    (print_declaration p d).1 = (print_declaration q d).1 := by
  cases d with
  | Function name params generic_args return_type body =>
      have hi : (incIndent p).indent = (incIndent q).indent := by simp [incIndent, h]
      have hP := print_params_congr params (incIndent p) (incIndent q) hi
      have hPi : (print_params (incIndent p) params).2.indent =
          (print_params (incIndent q) params).2.indent := by
        rw [(print_params_state (incIndent p) params).1,
          (print_params_state (incIndent q) params).1, hi]
      have hT := print_type_congr return_type
        (print_params (incIndent p) params).2 (print_params (incIndent q) params).2 hPi
      have hTi : (print_type (print_params (incIndent p) params).2 return_type).2.indent =
          (print_type (print_params (incIndent q) params).2 return_type).2.indent := by
        rw [(print_type_state (print_params (incIndent p) params).2 return_type).1,
          (print_type_state (print_params (incIndent q) params).2 return_type).1, hPi]
      have hB := print_expression_congr body
        (print_type (print_params (incIndent p) params).2 return_type).2
        (print_type (print_params (incIndent q) params).2 return_type).2 hTi
      simp only [print_declaration]
      rw [h, hi, hP, hT, hB, hTi, hPi]
  | Import path =>
      simp only [print_declaration]
      rw [h]
  | Struct name elements generic_args =>
      have hi : (incIndent p).indent = (incIndent q).indent := by simp [incIndent, h]
      have hE := print_struct_elements_congr elements (incIndent p) (incIndent q) hi
      simp only [print_declaration]
      rw [h, hi, hE]
  | TypeDeclaration name generic_args alias_ =>
      have hi : (incIndent p).indent = (incIndent q).indent := by simp [incIndent, h]
      have hA := print_type_congr alias_ (incIndent p) (incIndent q) hi
      have hAi : (print_type (incIndent p) alias_).2.indent =
          (print_type (incIndent q) alias_).2.indent := by
        rw [(print_type_state (incIndent p) alias_).1,
          (print_type_state (incIndent q) alias_).1, hi]
      simp only [print_declaration]
      rw [h, hi, hA, hAi]

theorem print_params_congr (params : List FunctionParameter) (p q : ASTPrinter)
    (h : p.indent = q.indent) : (print_params p params).1 = (print_params q params).1 := by
  cases params with
  | nil => simp only [print_params]
  | cons fp rest =>
      have h1 := print_type_congr fp.param_type p q h
      have hti : (print_type p fp.param_type).2.indent =
          (print_type q fp.param_type).2.indent := by
        rw [(print_type_state p fp.param_type).1, (print_type_state q fp.param_type).1, h]
      have h2 := print_params_congr rest
        (print_type p fp.param_type).2 (print_type q fp.param_type).2 hti
      simp only [print_params]
      rw [h, h1, h2]

theorem print_declarations_congr (ds : List Declaration) (p q : ASTPrinter)
    (h : p.indent = q.indent) : (print_declarations p ds).1 = (print_declarations q ds).1 := by
  cases ds with
  | nil => simp only [print_declarations]
  | cons d rest =>
      have h1 := print_declaration_congr d p q h
      have hdi : (print_declaration p d).2.indent = (print_declaration q d).2.indent := by
        rw [(print_declaration_state p d).1, (print_declaration_state q d).1, h]
      have h2 := print_declarations_congr rest
        (print_declaration p d).2 (print_declaration q d).2 hdi
      simp only [print_declarations]
      rw [h1, h2]

theorem print_struct_elements_congr (es : List StructElement) (p q : ASTPrinter)
    (h : p.indent = q.indent) :
    (print_struct_elements p es).1 = (print_struct_elements q es).1 := by
  cases es with
  | nil => simp only [print_struct_elements]
  | cons el rest =>
      cases el with
      | Field name field_type =>
          have h1 := print_type_congr field_type p q h
          have hti : (print_type p field_type).2.indent =
              (print_type q field_type).2.indent := by
            rw [(print_type_state p field_type).1, (print_type_state q field_type).1, h]
          have h2 := print_struct_elements_congr rest
            (print_type p field_type).2 (print_type q field_type).2 hti
          simp only [print_struct_elements]
          rw [h, h1, h2]
      | Declaration d =>
          have h1 := print_declaration_congr d p q h
          have hdi : (print_declaration p d).2.indent = (print_declaration q d).2.indent := by
            rw [(print_declaration_state p d).1, (print_declaration_state q d).1, h]
          have h2 := print_struct_elements_congr rest
            (print_declaration p d).2 (print_declaration q d).2 hdi
          simp only [print_struct_elements]
          rw [h1, h2]

theorem print_expression_congr (e : Expression) (p q : ASTPrinter) (h : p.indent = q.indent) :
    (print_expression p e).1 = (print_expression q e).1 := by
  cases e with
  | Block statements =>
      have hi : (incIndent p).indent = (incIndent q).indent := by simp [incIndent, h]
      have hS := print_statements_congr statements (incIndent p) (incIndent q) hi
      simp only [print_expression]
      rw [h, hS]
  | NumberLiteral value => simp only [print_expression]; rw [h]
  | StringLiteral value => simp only [print_expression]; rw [h]
  | CharLiteral value => simp only [print_expression]; rw [h]
  | Variable name expression_id => simp only [print_expression]; rw [h]
  | BooleanLiteral value => simp only [print_expression]; rw [h]
  | FunctionCall callee args =>
      have hi : (incIndent p).indent = (incIndent q).indent := by simp [incIndent, h]
      have hC := print_expression_congr callee (incIndent p) (incIndent q) hi
      have hCi : (print_expression (incIndent p) callee).2.indent =
          (print_expression (incIndent q) callee).2.indent := by
        rw [(print_expression_state (incIndent p) callee).1,
          (print_expression_state (incIndent q) callee).1, hi]
      have hA := print_expressions_congr args
        (print_expression (incIndent p) callee).2 (print_expression (incIndent q) callee).2 hCi
      simp only [print_expression]
      rw [h, hi, hC, hA, hCi]
  | BinaryOperation left operator right =>
      have hi : (incIndent p).indent = (incIndent q).indent := by simp [incIndent, h]
      have hL := print_expression_congr left (incIndent p) (incIndent q) hi
      have hLi : (print_expression (incIndent p) left).2.indent =
          (print_expression (incIndent q) left).2.indent := by
        rw [(print_expression_state (incIndent p) left).1,
          (print_expression_state (incIndent q) left).1, hi]
      have hR := print_expression_congr right
        (print_expression (incIndent p) left).2 (print_expression (incIndent q) left).2 hLi
      simp only [print_expression]
      rw [h, hi, hL, hR, hLi]
  | UnaryOperation operator operand =>
      have hi : (incIndent p).indent = (incIndent q).indent := by simp [incIndent, h]
      have hO := print_expression_congr operand (incIndent p) (incIndent q) hi
      simp only [print_expression]
      rw [h, hi, hO]
  | Assignment name value expression_id =>
      have hi : (incIndent p).indent = (incIndent q).indent := by simp [incIndent, h]
      have hV := print_expression_congr value (incIndent p) (incIndent q) hi
      simp only [print_expression]
      rw [h, hi, hV]
  | MemberAccess object member =>
      have hi : (incIndent p).indent = (incIndent q).indent := by simp [incIndent, h]
      have hO := print_expression_congr object (incIndent p) (incIndent q) hi
      have hOi : (print_expression (incIndent p) object).2.indent =
          (print_expression (incIndent q) object).2.indent := by
        rw [(print_expression_state (incIndent p) object).1,
          (print_expression_state (incIndent q) object).1, hi]
      simp only [print_expression]
      rw [h, hi, hO, hOi]
  | Array array_type size initial_value =>
      have hi : (incIndent p).indent = (incIndent q).indent := by simp [incIndent, h]
      have hT := print_type_congr array_type (incIndent p) (incIndent q) hi
      have hTi : (print_type (incIndent p) array_type).2.indent =
          (print_type (incIndent q) array_type).2.indent := by
        rw [(print_type_state (incIndent p) array_type).1,
          (print_type_state (incIndent q) array_type).1, hi]
      have hS := print_expression_congr size
        (print_type (incIndent p) array_type).2 (print_type (incIndent q) array_type).2 hTi
      have hSi : (print_expression (print_type (incIndent p) array_type).2 size).2.indent =
          (print_expression (print_type (incIndent q) array_type).2 size).2.indent := by
        rw [(print_expression_state (print_type (incIndent p) array_type).2 size).1,
          (print_expression_state (print_type (incIndent q) array_type).2 size).1, hTi]
      have hI := print_expression_congr initial_value
        (print_expression (print_type (incIndent p) array_type).2 size).2
        (print_expression (print_type (incIndent q) array_type).2 size).2 hSi
      simp only [print_expression]
      rw [h, hi, hT, hS, hI, hTi, hSi]
  | StructCreation struct_type fields =>
      have hi : (incIndent p).indent = (incIndent q).indent := by simp [incIndent, h]
      have hT := print_type_congr struct_type (incIndent p) (incIndent q) hi
      have hTi : (print_type (incIndent p) struct_type).2.indent =
          (print_type (incIndent q) struct_type).2.indent := by
        rw [(print_type_state (incIndent p) struct_type).1,
          (print_type_state (incIndent q) struct_type).1, hi]
      have hF := print_fields_congr fields
        (print_type (incIndent p) struct_type).2 (print_type (incIndent q) struct_type).2 hTi
      simp only [print_expression]
      rw [h, hi, hT, hF, hTi]
  | If condition then_branch else_branch =>
      cases else_branch with
      | some eb =>
          have hi : (incIndent p).indent = (incIndent q).indent := by simp [incIndent, h]
          have hC := print_expression_congr condition (incIndent p) (incIndent q) hi
          have hCi : (print_expression (incIndent p) condition).2.indent =
              (print_expression (incIndent q) condition).2.indent := by
            rw [(print_expression_state (incIndent p) condition).1,
              (print_expression_state (incIndent q) condition).1, hi]
          have hT := print_expression_congr then_branch
            (print_expression (incIndent p) condition).2
            (print_expression (incIndent q) condition).2 hCi
          have hTi : (print_expression (print_expression (incIndent p) condition).2
              then_branch).2.indent =
              (print_expression (print_expression (incIndent q) condition).2
              then_branch).2.indent := by
            rw [(print_expression_state (print_expression (incIndent p) condition).2
              then_branch).1,
              (print_expression_state (print_expression (incIndent q) condition).2
              then_branch).1, hCi]
          have hE := print_expression_congr eb
            (print_expression (print_expression (incIndent p) condition).2 then_branch).2
            (print_expression (print_expression (incIndent q) condition).2 then_branch).2 hTi
          simp only [print_expression]
          rw [h, hi, hC, hT, hE, hTi, hCi]
      | none =>
          have hi : (incIndent p).indent = (incIndent q).indent := by simp [incIndent, h]
          have hC := print_expression_congr condition (incIndent p) (incIndent q) hi
          have hCi : (print_expression (incIndent p) condition).2.indent =
              (print_expression (incIndent q) condition).2.indent := by
            rw [(print_expression_state (incIndent p) condition).1,
              (print_expression_state (incIndent q) condition).1, hi]
          have hT := print_expression_congr then_branch
            (print_expression (incIndent p) condition).2
            (print_expression (incIndent q) condition).2 hCi
          simp only [print_expression]
          rw [h, hi, hC, hT, hCi]
  | Loop loop_type =>
      cases loop_type with
      | While condition body =>
          have hi : (incIndent p).indent = (incIndent q).indent := by simp [incIndent, h]
          have hC := print_expression_congr condition (incIndent p) (incIndent q) hi
          have hCi : (print_expression (incIndent p) condition).2.indent =
              (print_expression (incIndent q) condition).2.indent := by
            rw [(print_expression_state (incIndent p) condition).1,
              (print_expression_state (incIndent q) condition).1, hi]
          have hB := print_expression_congr body
            (print_expression (incIndent p) condition).2
            (print_expression (incIndent q) condition).2 hCi
          simp only [print_expression]
          rw [h, hi, hC, hB, hCi]
      | Infinite body =>
          have hi : (incIndent p).indent = (incIndent q).indent := by simp [incIndent, h]
          have hB := print_expression_congr body (incIndent p) (incIndent q) hi
          simp only [print_expression]
          rw [h, hB]
      | Iterator mutability iterator iterable body =>
          have hi : (incIndent p).indent = (incIndent q).indent := by simp [incIndent, h]
          have hI := print_expression_congr iterable (incIndent p) (incIndent q) hi
          have hIi : (print_expression (incIndent p) iterable).2.indent =
              (print_expression (incIndent q) iterable).2.indent := by
            rw [(print_expression_state (incIndent p) iterable).1,
              (print_expression_state (incIndent q) iterable).1, hi]
          have hB := print_expression_congr body
            (print_expression (incIndent p) iterable).2
            (print_expression (incIndent q) iterable).2 hIi
          simp only [print_expression]
          rw [h, hi, hI, hB, hIi]

theorem print_expressions_congr (es : List Expression) (p q : ASTPrinter)
    (h : p.indent = q.indent) : (print_expressions p es).1 = (print_expressions q es).1 := by
  cases es with
  | nil => simp only [print_expressions]
  | cons e rest =>
      have h1 := print_expression_congr e p q h
      have hei : (print_expression p e).2.indent = (print_expression q e).2.indent := by
        rw [(print_expression_state p e).1, (print_expression_state q e).1, h]
      have h2 := print_expressions_congr rest
        (print_expression p e).2 (print_expression q e).2 hei
      simp only [print_expressions]
      rw [h1, h2]

theorem print_fields_congr (fs : List (String × Expression)) (p q : ASTPrinter)
    (h : p.indent = q.indent) : (print_fields p fs).1 = (print_fields q fs).1 := by
  cases fs with
  | nil => simp only [print_fields]
  | cons f rest =>
      obtain ⟨name, value⟩ := f
      have hi : (incIndent p).indent = (incIndent q).indent := by simp [incIndent, h]
      have hV := print_expression_congr value (incIndent p) (incIndent q) hi
      have hp2 : (decIndent (print_expression (incIndent p) value).2).indent =
          (decIndent (print_expression (incIndent q) value).2).indent := by
        simp only [decIndent]
        rw [(print_expression_state (incIndent p) value).1,
          (print_expression_state (incIndent q) value).1, hi]
      have h2 := print_fields_congr rest
        (decIndent (print_expression (incIndent p) value).2)
        (decIndent (print_expression (incIndent q) value).2) hp2
      simp only [print_fields]
      rw [h, hV, h2]

theorem print_statement_congr (s : Statement) (p q : ASTPrinter) (h : p.indent = q.indent) :
    (print_statement p s).1 = (print_statement q s).1 := by
  cases s with
  | Declaration d =>
      simp only [print_statement]
      exact print_declaration_congr d p q h
  | Break => simp only [print_statement]; rw [h]
  | Continue => simp only [print_statement]; rw [h]
  | Expression expression result =>
      have hi : (incIndent p).indent = (incIndent q).indent := by simp [incIndent, h]
      have hE := print_expression_congr expression (incIndent p) (incIndent q) hi
      have hEi : (print_expression (incIndent p) expression).2.indent =
          (print_expression (incIndent q) expression).2.indent := by
        rw [(print_expression_state (incIndent p) expression).1,
          (print_expression_state (incIndent q) expression).1, hi]
      simp only [print_statement]
      rw [h, hE, hEi]
  | Return value =>
      cases value with
      | some v =>
          have hi : (incIndent p).indent = (incIndent q).indent := by simp [incIndent, h]
          have hV := print_expression_congr v (incIndent p) (incIndent q) hi
          simp only [print_statement]
          rw [h, hV]
      | none =>
          have hi : (incIndent p).indent = (incIndent q).indent := by simp [incIndent, h]
          simp only [print_statement]
          rw [h, hi]
  | VariableDeclaration mutability name variable_type value =>
      have hi : (incIndent p).indent = (incIndent q).indent := by simp [incIndent, h]
      have hT := print_type_congr variable_type (incIndent p) (incIndent q) hi
      have hTi : (print_type (incIndent p) variable_type).2.indent =
          (print_type (incIndent q) variable_type).2.indent := by
        rw [(print_type_state (incIndent p) variable_type).1,
          (print_type_state (incIndent q) variable_type).1, hi]
      have hV := print_expression_congr value
        (print_type (incIndent p) variable_type).2 (print_type (incIndent q) variable_type).2 hTi
      simp only [print_statement]
      rw [h, hi, hT, hV, hTi]

theorem print_statements_congr (ss : List Statement) (p q : ASTPrinter)
    (h : p.indent = q.indent) : (print_statements p ss).1 = (print_statements q ss).1 := by
  cases ss with
  | nil => simp only [print_statements]
  | cons s rest =>
      have h1 := print_statement_congr s p q h
      have hsi : (print_statement p s).2.indent = (print_statement q s).2.indent := by
        rw [(print_statement_state p s).1, (print_statement_state q s).1, h]
      have h2 := print_statements_congr rest (print_statement p s).2 (print_statement q s).2 hsi
      simp only [print_statements]
      rw [h1, h2]

end

end Vixen

namespace Vixen

/-! ### Stateless views of the rendered output -/

/-- Ambient helper: appending strings appends their character data. -/
theorem data_append (s t : String) : (s ++ t).data = s.data ++ t.data := by
  cases s; cases t; rfl

/-- The string `print_type` produces, as a function of the indent alone. -/
def typeString (ind : Nat) (ty : Ty) : String :=
  (print_type ⟨ind, 0, 0⟩ ty).1

/-- The string `print_expression` produces, as a function of the indent alone. -/
def exprString (ind : Nat) (e : Expression) : String :=
  (print_expression ⟨ind, 0, 0⟩ e).1

/-- The string `print_statement` produces, as a function of the indent alone. -/
def stmtString (ind : Nat) (s : Statement) : String :=
  (print_statement ⟨ind, 0, 0⟩ s).1

/-- The string `print_declaration` produces, as a function of the indent alone. -/
def declString (ind : Nat) (d : Declaration) : String :=
  (print_declaration ⟨ind, 0, 0⟩ d).1

theorem print_type_str (p : ASTPrinter) (ty : Ty) :
    (print_type p ty).1 = typeString p.indent ty :=
  print_type_congr ty p ⟨p.indent, 0, 0⟩ rfl

theorem print_expression_str (p : ASTPrinter) (e : Expression) :
    (print_expression p e).1 = exprString p.indent e :=
  print_expression_congr e p ⟨p.indent, 0, 0⟩ rfl

theorem print_statement_str (p : ASTPrinter) (s : Statement) :
    (print_statement p s).1 = stmtString p.indent s :=
  print_statement_congr s p ⟨p.indent, 0, 0⟩ rfl

theorem print_declaration_str (p : ASTPrinter) (d : Declaration) :
    (print_declaration p d).1 = declString p.indent d :=
  print_declaration_congr d p ⟨p.indent, 0, 0⟩ rfl

/-- One `"- {name}: {type}"` line per parameter, all at the same depth, in
declared order: the shape the spec ascribes to a function's parameter block. -/
def paramLines (ind : Nat) : List FunctionParameter → String
  | [] => ""
  | fp :: rest =>
      fmt_indent ind ("- " ++ fp.name ++ ": " ++ typeString ind fp.param_type ++ "\n") ++
        paramLines ind rest

theorem print_params_eq_paramLines (p : ASTPrinter) (params : List FunctionParameter) :
    (print_params p params).1 = paramLines p.indent params := by
  induction params generalizing p with
  | nil => simp only [print_params, paramLines]
  | cons fp rest ih =>
      simp only [print_params, paramLines]
      rw [print_type_str p fp.param_type, ih (print_type p fp.param_type).2,
        (print_type_state p fp.param_type).1]

end Vixen

namespace Vixen

/-! ### ExpressionId erasure (C9): the ids carried by Variable and Assignment
nodes are never read by the printer. -/

mutual

/-- Replaces every `ExpressionId` in an expression by `0`. -/
def eraseIdsE : Expression → Expression
  | .Block ss => .Block (eraseIdsStmts ss)
  | .NumberLiteral v => .NumberLiteral v
  | .StringLiteral v => .StringLiteral v
  | .CharLiteral v => .CharLiteral v
  | .Variable n _ => .Variable n ⟨0⟩
  | .BooleanLiteral v => .BooleanLiteral v
  | .FunctionCall c args => .FunctionCall (eraseIdsE c) (eraseIdsList args)
  | .BinaryOperation l op r => .BinaryOperation (eraseIdsE l) op (eraseIdsE r)
  | .UnaryOperation op o => .UnaryOperation op (eraseIdsE o)
  | .Assignment n v _ => .Assignment n (eraseIdsE v) ⟨0⟩
  | .MemberAccess o m => .MemberAccess (eraseIdsE o) m
  | .Array t s i => .Array t (eraseIdsE s) (eraseIdsE i)
  | .StructCreation t fs => .StructCreation t (eraseIdsFields fs)
  | .If c t e => .If (eraseIdsE c) (eraseIdsE t) (eraseIdsOpt e)
  | .Loop lt => .Loop (eraseIdsLoop lt)

def eraseIdsOpt : Option Expression → Option Expression
  | none => none
  | some e => some (eraseIdsE e)

def eraseIdsLoop : LoopType → LoopType
  | .While c b => .While (eraseIdsE c) (eraseIdsE b)
  | .Infinite b => .Infinite (eraseIdsE b)
  | .Iterator m it ib b => .Iterator m it (eraseIdsE ib) (eraseIdsE b)

def eraseIdsList : List Expression → List Expression
  | [] => []
  | e :: rest => eraseIdsE e :: eraseIdsList rest

def eraseIdsFields : List (String × Expression) → List (String × Expression)
  | [] => []
  | (n, v) :: rest => (n, eraseIdsE v) :: eraseIdsFields rest

def eraseIdsStmt : Statement → Statement
  | .Declaration d => .Declaration (eraseIdsDecl d)
  | .Expression e r => .Expression (eraseIdsE e) r
  | .VariableDeclaration m n t v => .VariableDeclaration m n t (eraseIdsE v)
  | .Break => .Break
  | .Continue => .Continue
  | .Return v => .Return (eraseIdsOpt v)

def eraseIdsStmts : List Statement → List Statement
  | [] => []
  | s :: rest => eraseIdsStmt s :: eraseIdsStmts rest

def eraseIdsDecl : Declaration → Declaration
  | .Function n ps gas rt b => .Function n ps gas rt (eraseIdsE b)
  | .Struct n es gas => .Struct n (eraseIdsElems es) gas
  | .TypeDeclaration n gas a => .TypeDeclaration n gas a
  | .Import p => .Import p

def eraseIdsElems : List StructElement → List StructElement
  | [] => []
  | .Declaration d :: rest => .Declaration (eraseIdsDecl d) :: eraseIdsElems rest
  | .Field n t :: rest => .Field n t :: eraseIdsElems rest

def eraseIdsDecls : List Declaration → List Declaration
  | [] => []
  | d :: rest => eraseIdsDecl d :: eraseIdsDecls rest

end

/-- Replaces every `ExpressionId` in a program by `0`. -/
def eraseIdsProgram (prog : Program) : Program :=
  ⟨eraseIdsDecls prog.declarations⟩

mutual

theorem print_expression_eraseIds (p : ASTPrinter) (e : Expression) :
    print_expression p (eraseIdsE e) = print_expression p e := by
  cases e with
  | Block statements =>
      simp only [eraseIdsE, print_expression]
      rw [print_statements_eraseIds (incIndent p) statements]
  | NumberLiteral value => simp only [eraseIdsE]
  | StringLiteral value => simp only [eraseIdsE]
  | CharLiteral value => simp only [eraseIdsE]
  | Variable name expression_id => simp only [eraseIdsE, print_expression]
  | BooleanLiteral value => simp only [eraseIdsE]
  | FunctionCall callee args =>
      simp only [eraseIdsE, print_expression]
      rw [print_expression_eraseIds (incIndent p) callee,
        print_expressions_eraseIds (print_expression (incIndent p) callee).2 args]
  | BinaryOperation left operator right =>
      simp only [eraseIdsE, print_expression]
      rw [print_expression_eraseIds (incIndent p) left,
        print_expression_eraseIds (print_expression (incIndent p) left).2 right]
  | UnaryOperation operator operand =>
      simp only [eraseIdsE, print_expression]
      rw [print_expression_eraseIds (incIndent p) operand]
  | Assignment name value expression_id =>
      simp only [eraseIdsE, print_expression]
      rw [print_expression_eraseIds (incIndent p) value]
  | MemberAccess object member =>
      simp only [eraseIdsE, print_expression]
      rw [print_expression_eraseIds (incIndent p) object]
  | Array array_type size initial_value =>
      simp only [eraseIdsE, print_expression]
      rw [print_expression_eraseIds (print_type (incIndent p) array_type).2 size,
        print_expression_eraseIds
          (print_expression (print_type (incIndent p) array_type).2 size).2 initial_value]
  | StructCreation struct_type fields =>
      simp only [eraseIdsE, print_expression]
      rw [print_fields_eraseIds (print_type (incIndent p) struct_type).2 fields]
  | If condition then_branch else_branch =>
      cases else_branch with
      | some eb =>
          simp only [eraseIdsE, eraseIdsOpt, print_expression]
          rw [print_expression_eraseIds (incIndent p) condition,
            print_expression_eraseIds (print_expression (incIndent p) condition).2 then_branch,
            print_expression_eraseIds
              (print_expression (print_expression (incIndent p) condition).2 then_branch).2 eb]
      | none =>
          simp only [eraseIdsE, eraseIdsOpt, print_expression]
          rw [print_expression_eraseIds (incIndent p) condition,
            print_expression_eraseIds (print_expression (incIndent p) condition).2 then_branch]
  | Loop loop_type =>
      cases loop_type with
      | While condition body =>
          simp only [eraseIdsE, eraseIdsLoop, print_expression]
          rw [print_expression_eraseIds (incIndent p) condition,
            print_expression_eraseIds (print_expression (incIndent p) condition).2 body]
      | Infinite body =>
          simp only [eraseIdsE, eraseIdsLoop, print_expression]
          rw [print_expression_eraseIds (incIndent p) body]
      | Iterator mutability iterator iterable body =>
          simp only [eraseIdsE, eraseIdsLoop, print_expression]
          rw [print_expression_eraseIds (incIndent p) iterable,
            print_expression_eraseIds (print_expression (incIndent p) iterable).2 body]

theorem print_expressions_eraseIds (p : ASTPrinter) (es : List Expression) :
    print_expressions p (eraseIdsList es) = print_expressions p es := by
  cases es with
  | nil => simp only [eraseIdsList]
  | cons e rest =>
      simp only [eraseIdsList, print_expressions]
      rw [print_expression_eraseIds p e, print_expressions_eraseIds (print_expression p e).2 rest]

theorem print_fields_eraseIds (p : ASTPrinter) (fs : List (String × Expression)) :
    print_fields p (eraseIdsFields fs) = print_fields p fs := by
  cases fs with
  | nil => simp only [eraseIdsFields]
  | cons f rest =>
      obtain ⟨name, value⟩ := f
      simp only [eraseIdsFields, print_fields]
      rw [print_expression_eraseIds (incIndent p) value,
        print_fields_eraseIds (decIndent (print_expression (incIndent p) value).2) rest]

theorem print_statement_eraseIds (p : ASTPrinter) (s : Statement) :
    print_statement p (eraseIdsStmt s) = print_statement p s := by
  cases s with
  | Declaration d =>
      simp only [eraseIdsStmt, print_statement]
      rw [print_declaration_eraseIds p d]
  | Break => simp only [eraseIdsStmt]
  | Continue => simp only [eraseIdsStmt]
  | Expression expression result =>
      simp only [eraseIdsStmt, print_statement]
      rw [print_expression_eraseIds (incIndent p) expression]
  | Return value =>
      cases value with
      | some v =>
          simp only [eraseIdsStmt, eraseIdsOpt, print_statement]
          rw [print_expression_eraseIds (incIndent p) v]
      | none => simp only [eraseIdsStmt, eraseIdsOpt]
  | VariableDeclaration mutability name variable_type value =>
      simp only [eraseIdsStmt, print_statement]
      rw [print_expression_eraseIds (print_type (incIndent p) variable_type).2 value]

theorem print_statements_eraseIds (p : ASTPrinter) (ss : List Statement) :
    print_statements p (eraseIdsStmts ss) = print_statements p ss := by
  cases ss with
  | nil => simp only [eraseIdsStmts]
  | cons s rest =>
      simp only [eraseIdsStmts, print_statements]
      rw [print_statement_eraseIds p s, print_statements_eraseIds (print_statement p s).2 rest]

theorem print_declaration_eraseIds (p : ASTPrinter) (d : Declaration) :
    print_declaration p (eraseIdsDecl d) = print_declaration p d := by
  cases d with
  | Function name params generic_args return_type body =>
      simp only [eraseIdsDecl, print_declaration]
      rw [print_expression_eraseIds
        (print_type (print_params (incIndent p) params).2 return_type).2 body]
  | Import path => simp only [eraseIdsDecl]
  | Struct name elements generic_args =>
      simp only [eraseIdsDecl, print_declaration]
      rw [print_struct_elements_eraseIds (incIndent p) elements]
  | TypeDeclaration name generic_args alias_ => simp only [eraseIdsDecl]

theorem print_struct_elements_eraseIds (p : ASTPrinter) (es : List StructElement) :
    print_struct_elements p (eraseIdsElems es) = print_struct_elements p es := by
  cases es with
  | nil => simp only [eraseIdsElems]
  | cons el rest =>
      cases el with
      | Field name field_type =>
          simp only [eraseIdsElems, print_struct_elements]
          rw [print_struct_elements_eraseIds (print_type p field_type).2 rest]
      | Declaration d =>
          simp only [eraseIdsElems, print_struct_elements]
          rw [print_declaration_eraseIds p d,
            print_struct_elements_eraseIds (print_declaration p d).2 rest]

theorem print_declarations_eraseIds (p : ASTPrinter) (ds : List Declaration) :
    print_declarations p (eraseIdsDecls ds) = print_declarations p ds := by
  cases ds with
  | nil => simp only [eraseIdsDecls]
  | cons d rest =>
      simp only [eraseIdsDecls, print_declarations]
      rw [print_declaration_eraseIds p d,
        print_declarations_eraseIds (print_declaration p d).2 rest]

end

theorem print_program_eraseIds (p : ASTPrinter) (prog : Program) :
    print_program p (eraseIdsProgram prog) = print_program p prog := by
  simp only [print_program, eraseIdsProgram]
  rw [print_declarations_eraseIds]

end Vixen

namespace Vixen

/-! ### Generic-argument erasure (C10): the `generic_args` lists of `Function`
and `Struct` declarations are never read by the printer (the `TypeDeclaration`
list, which the printer does read, is kept intact). -/

mutual

def eraseGenE : Expression → Expression
  | .Block ss => .Block (eraseGenStmts ss)
  | .NumberLiteral v => .NumberLiteral v
  | .StringLiteral v => .StringLiteral v
  | .CharLiteral v => .CharLiteral v
  | .Variable n i => .Variable n i
  | .BooleanLiteral v => .BooleanLiteral v
  | .FunctionCall c args => .FunctionCall (eraseGenE c) (eraseGenList args)
  | .BinaryOperation l op r => .BinaryOperation (eraseGenE l) op (eraseGenE r)
  | .UnaryOperation op o => .UnaryOperation op (eraseGenE o)
  | .Assignment n v i => .Assignment n (eraseGenE v) i
  | .MemberAccess o m => .MemberAccess (eraseGenE o) m
  | .Array t s i => .Array t (eraseGenE s) (eraseGenE i)
  | .StructCreation t fs => .StructCreation t (eraseGenFields fs)
  | .If c t e => .If (eraseGenE c) (eraseGenE t) (eraseGenOpt e)
  | .Loop lt => .Loop (eraseGenLoop lt)

def eraseGenOpt : Option Expression → Option Expression
  | none => none
  | some e => some (eraseGenE e)

def eraseGenLoop : LoopType → LoopType
  | .While c b => .While (eraseGenE c) (eraseGenE b)
  | .Infinite b => .Infinite (eraseGenE b)
  | .Iterator m it ib b => .Iterator m it (eraseGenE ib) (eraseGenE b)

def eraseGenList : List Expression → List Expression
  | [] => []
  | e :: rest => eraseGenE e :: eraseGenList rest

def eraseGenFields : List (String × Expression) → List (String × Expression)
  | [] => []
  | (n, v) :: rest => (n, eraseGenE v) :: eraseGenFields rest

def eraseGenStmt : Statement → Statement
  | .Declaration d => .Declaration (eraseGenDecl d)
  | .Expression e r => .Expression (eraseGenE e) r
  | .VariableDeclaration m n t v => .VariableDeclaration m n t (eraseGenE v)
  | .Break => .Break
  | .Continue => .Continue
  | .Return v => .Return (eraseGenOpt v)

def eraseGenStmts : List Statement → List Statement
  | [] => []
  | s :: rest => eraseGenStmt s :: eraseGenStmts rest

def eraseGenDecl : Declaration → Declaration
  | .Function n ps _gas rt b => .Function n ps [] rt (eraseGenE b)
  | .Struct n es _gas => .Struct n (eraseGenElems es) []
  | .TypeDeclaration n gas a => .TypeDeclaration n gas a
  | .Import p => .Import p

def eraseGenElems : List StructElement → List StructElement
  | [] => []
  | .Declaration d :: rest => .Declaration (eraseGenDecl d) :: eraseGenElems rest
  | .Field n t :: rest => .Field n t :: eraseGenElems rest

def eraseGenDecls : List Declaration → List Declaration
  | [] => []
  | d :: rest => eraseGenDecl d :: eraseGenDecls rest

end

/-- Empties the `generic_args` lists of every `Function` and `Struct`
declaration of a program. -/
def eraseGenProgram (prog : Program) : Program :=
  ⟨eraseGenDecls prog.declarations⟩

mutual

theorem print_expression_eraseGen (p : ASTPrinter) (e : Expression) :
    print_expression p (eraseGenE e) = print_expression p e := by
  cases e with
  | Block statements =>
      simp only [eraseGenE, print_expression]
      rw [print_statements_eraseGen (incIndent p) statements]
  | NumberLiteral value => simp only [eraseGenE]
  | StringLiteral value => simp only [eraseGenE]
  | CharLiteral value => simp only [eraseGenE]
  | Variable name expression_id => simp only [eraseGenE]
  | BooleanLiteral value => simp only [eraseGenE]
  | FunctionCall callee args =>
      simp only [eraseGenE, print_expression]
      rw [print_expression_eraseGen (incIndent p) callee,
        print_expressions_eraseGen (print_expression (incIndent p) callee).2 args]
  | BinaryOperation left operator right =>
      simp only [eraseGenE, print_expression]
      rw [print_expression_eraseGen (incIndent p) left,
        print_expression_eraseGen (print_expression (incIndent p) left).2 right]
  | UnaryOperation operator operand =>
      simp only [eraseGenE, print_expression]
      rw [print_expression_eraseGen (incIndent p) operand]
  | Assignment name value expression_id =>
      simp only [eraseGenE, print_expression]
      rw [print_expression_eraseGen (incIndent p) value]
  | MemberAccess object member =>
      simp only [eraseGenE, print_expression]
      rw [print_expression_eraseGen (incIndent p) object]
  | Array array_type size initial_value =>
      simp only [eraseGenE, print_expression]
      rw [print_expression_eraseGen (print_type (incIndent p) array_type).2 size,
        print_expression_eraseGen
          (print_expression (print_type (incIndent p) array_type).2 size).2 initial_value]
  | StructCreation struct_type fields =>
      simp only [eraseGenE, print_expression]
      rw [print_fields_eraseGen (print_type (incIndent p) struct_type).2 fields]
  | If condition then_branch else_branch =>
      cases else_branch with
      | some eb =>
          simp only [eraseGenE, eraseGenOpt, print_expression]
          rw [print_expression_eraseGen (incIndent p) condition,
            print_expression_eraseGen (print_expression (incIndent p) condition).2 then_branch,
            print_expression_eraseGen
              (print_expression (print_expression (incIndent p) condition).2 then_branch).2 eb]
      | none =>
          simp only [eraseGenE, eraseGenOpt, print_expression]
          rw [print_expression_eraseGen (incIndent p) condition,
            print_expression_eraseGen (print_expression (incIndent p) condition).2 then_branch]
  | Loop loop_type =>
      cases loop_type with
      | While condition body =>
          simp only [eraseGenE, eraseGenLoop, print_expression]
          rw [print_expression_eraseGen (incIndent p) condition,
            print_expression_eraseGen (print_expression (incIndent p) condition).2 body]
      | Infinite body =>
          simp only [eraseGenE, eraseGenLoop, print_expression]
          rw [print_expression_eraseGen (incIndent p) body]
      | Iterator mutability iterator iterable body =>
          simp only [eraseGenE, eraseGenLoop, print_expression]
          rw [print_expression_eraseGen (incIndent p) iterable,
            print_expression_eraseGen (print_expression (incIndent p) iterable).2 body]

theorem print_expressions_eraseGen (p : ASTPrinter) (es : List Expression) :
    print_expressions p (eraseGenList es) = print_expressions p es := by
  cases es with
  | nil => simp only [eraseGenList]
  | cons e rest =>
      simp only [eraseGenList, print_expressions]
      rw [print_expression_eraseGen p e, print_expressions_eraseGen (print_expression p e).2 rest]

theorem print_fields_eraseGen (p : ASTPrinter) (fs : List (String × Expression)) :
    print_fields p (eraseGenFields fs) = print_fields p fs := by
  cases fs with
  | nil => simp only [eraseGenFields]
  | cons f rest =>
      obtain ⟨name, value⟩ := f
      simp only [eraseGenFields, print_fields]
      rw [print_expression_eraseGen (incIndent p) value,
        print_fields_eraseGen (decIndent (print_expression (incIndent p) value).2) rest]

theorem print_statement_eraseGen (p : ASTPrinter) (s : Statement) :
    print_statement p (eraseGenStmt s) = print_statement p s := by
  cases s with
  | Declaration d =>
      simp only [eraseGenStmt, print_statement]
      rw [print_declaration_eraseGen p d]
  | Break => simp only [eraseGenStmt]
  | Continue => simp only [eraseGenStmt]
  | Expression expression result =>
      simp only [eraseGenStmt, print_statement]
      rw [print_expression_eraseGen (incIndent p) expression]
  | Return value =>
      cases value with
      | some v =>
          simp only [eraseGenStmt, eraseGenOpt, print_statement]
          rw [print_expression_eraseGen (incIndent p) v]
      | none => simp only [eraseGenStmt, eraseGenOpt]
  | VariableDeclaration mutability name variable_type value =>
      simp only [eraseGenStmt, print_statement]
      rw [print_expression_eraseGen (print_type (incIndent p) variable_type).2 value]

theorem print_statements_eraseGen (p : ASTPrinter) (ss : List Statement) :
    print_statements p (eraseGenStmts ss) = print_statements p ss := by
  cases ss with
  | nil => simp only [eraseGenStmts]
  | cons s rest =>
      simp only [eraseGenStmts, print_statements]
      rw [print_statement_eraseGen p s, print_statements_eraseGen (print_statement p s).2 rest]

theorem print_declaration_eraseGen (p : ASTPrinter) (d : Declaration) :
    print_declaration p (eraseGenDecl d) = print_declaration p d := by
  cases d with
  | Function name params generic_args return_type body =>
      simp only [eraseGenDecl, print_declaration]
      rw [print_expression_eraseGen
        (print_type (print_params (incIndent p) params).2 return_type).2 body]
  | Import path => simp only [eraseGenDecl]
  | Struct name elements generic_args =>
      simp only [eraseGenDecl, print_declaration]
      rw [print_struct_elements_eraseGen (incIndent p) elements]
  | TypeDeclaration name generic_args alias_ => simp only [eraseGenDecl]

theorem print_struct_elements_eraseGen (p : ASTPrinter) (es : List StructElement) :
    print_struct_elements p (eraseGenElems es) = print_struct_elements p es := by
  cases es with
  | nil => simp only [eraseGenElems]
  | cons el rest =>
      cases el with
      | Field name field_type =>
          simp only [eraseGenElems, print_struct_elements]
          rw [print_struct_elements_eraseGen (print_type p field_type).2 rest]
      | Declaration d =>
          simp only [eraseGenElems, print_struct_elements]
          rw [print_declaration_eraseGen p d,
            print_struct_elements_eraseGen (print_declaration p d).2 rest]

theorem print_declarations_eraseGen (p : ASTPrinter) (ds : List Declaration) :
    print_declarations p (eraseGenDecls ds) = print_declarations p ds := by
  cases ds with
  | nil => simp only [eraseGenDecls]
  | cons d rest =>
      simp only [eraseGenDecls, print_declarations]
      rw [print_declaration_eraseGen p d,
        print_declarations_eraseGen (print_declaration p d).2 rest]

end

theorem print_program_eraseGen (p : ASTPrinter) (prog : Program) :
    print_program p (eraseGenProgram prog) = print_program p prog := by
  simp only [print_program, eraseGenProgram]
  rw [print_declarations_eraseGen]

end Vixen

namespace Vixen

/-! ### Helper notions for the claims about output lines -/

/-- Splits a character list at newline characters. -/
def splitOnNl : List Char → List (List Char)
  | [] => [[]]
  | c :: rest =>
      if c = '\n' then [] :: splitOnNl rest
      else
        match splitOnNl rest with
        | [] => [[c]]
        | l :: ls => (c :: l) :: ls

/-- The lines of a string: the maximal newline-free segments. -/
def linesOf (s : String) : List String :=
  (splitOnNl s.data).map String.mk

/-- The per-line shape asserted by the spec: the muted marker, the guide token
repeated once per depth level, reset, bold, a header, reset, and then — when
the line has further content — a colon-space separator and the rest. -/
def claimedLinePattern (l : String) : Prop :=
  ∃ (d : Nat) (header rest : String),
    l = ANSI_GRAY ++ guides d ++ ANSI_RESET ++ ANSI_BOLD ++ header ++ ANSI_RESET ++ ": " ++ rest ∨
    l = ANSI_GRAY ++ guides d ++ ANSI_RESET ++ ANSI_BOLD ++ header ++ ANSI_RESET

/-- Strings of the first claimed per-line form contain a colon. -/
theorem colon_mem_of_colon_form (l X r : String) (h : l = X ++ ": " ++ r) :
    (':' : Char) ∈ l.data := by
  subst h
  rw [data_append, data_append]
  exact List.mem_append.mpr (Or.inl (List.mem_append.mpr (Or.inr (by decide))))

/-- Strings of the second claimed per-line form end with the final character
of the reset marker. -/
theorem last_m_of_reset_form (l X : String) (h : l = X ++ ANSI_RESET) :
    l.data.getLast? = some 'm' := by
  subst h
  rw [data_append]
  rw [@List.getLast?_append_of_ne_nil _ X.data ANSI_RESET.data (by decide)]
  decide

/-- A program whose output contains a line produced by a colon-free header:
a function whose body block holds a `Break` statement. -/
def c1Program : Program := ⟨[.Function "f" [] [] .Nil (.Block [.Break])]⟩

/-- The `Break` line of `c1Program`'s output: the bold span is never closed on
this line, because `fmt_indent` emits the reset only after the `"Break\n"`
text, i.e. on the following line. -/
def c1Line : String := "\x1b[90m|  |  \x1b[0m\x1b[1mBreak"

/-- Characterisation of `splitFirstColon`: the first component is colon-free,
and the input is reassembled from the two components. -/
theorem splitFirstColon_spec (cs : List Char) :
    (∀ c ∈ (splitFirstColon cs).1, c ≠ ':') ∧
    (((splitFirstColon cs).2 = none ∧ cs = (splitFirstColon cs).1) ∨
      (∃ r, (splitFirstColon cs).2 = some r ∧ cs = (splitFirstColon cs).1 ++ ':' :: r)) := by
  induction cs with
  | nil => simp [splitFirstColon]
  | cons c rest ih =>
      by_cases hc : c = ':'
      · subst hc
        simp only [splitFirstColon, if_pos rfl]
        exact ⟨by simp, Or.inr ⟨rest, rfl, rfl⟩⟩
      · simp only [splitFirstColon, if_neg hc]
        constructor
        · intro x hx
          rcases List.mem_cons.mp hx with h | h
          · subst h; exact hc
          · exact ih.1 x h
        · rcases ih.2 with ⟨h2, heq⟩ | ⟨r, h2, heq⟩
          · exact Or.inl ⟨h2, by rw [← heq]⟩
          · exact Or.inr ⟨r, h2, by rw [List.cons_append, ← heq]⟩

/-! ### The claims -/

/-- Claim C1 (counterexample): not every output line has the claimed shape.
The `Break` line of `c1Program`'s rendering carries no closing reset marker
and no colon separator, so it matches neither claimed form. -/
theorem C1_counterexample :
    c1Line ∈ linesOf (print_program ⟨0, 0, 0⟩ c1Program).1 ∧
      ¬ claimedLinePattern c1Line := by
  constructor
  · decide
  · rintro ⟨d, header, rest, hc | hc⟩
    · have h2 := colon_mem_of_colon_form c1Line
        (ANSI_GRAY ++ guides d ++ ANSI_RESET ++ ANSI_BOLD ++ header ++ ANSI_RESET) rest hc
      revert h2
      decide
    · have h2 := last_m_of_reset_form c1Line
        (ANSI_GRAY ++ guides d ++ ANSI_RESET ++ ANSI_BOLD ++ header) hc
      revert h2
      decide

/-- Claim C1 (amended): every fragment emitted by `fmt_indent` — one per
header, not one per output line — is composed of the muted marker, the guide
token repeated once per current depth level, the reset marker, the bold
marker, a colon-free header, the reset marker, and then, when the formatted
content contains a colon, a plain `":"` followed by the remainder of the
content (whose newline thus precedes nothing else); for colon-free content
the trailing reset lands after the content's newline, on the next line. -/
theorem C1_amended_fragment_structure (ind : Nat) (val : String) :
    ∃ header tail,
      fmt_indent ind val =
        ANSI_GRAY ++ guides ind ++ ANSI_RESET ++ ANSI_BOLD ++ header ++ ANSI_RESET ++ tail ∧
      (∀ c ∈ header.data, c ≠ ':') ∧
      ((tail = "" ∧ val.data = header.data) ∨
        (∃ r : String, tail = ":" ++ r ∧ val.data = header.data ++ ':' :: r.data)) := by
  obtain ⟨hnc, hsplit⟩ := splitFirstColon_spec val.data
  rcases hsplit with ⟨h2, heq⟩ | ⟨r, h2, heq⟩
  · refine ⟨String.mk (splitFirstColon val.data).1, "", ?_, hnc, Or.inl ⟨rfl, heq⟩⟩
    simp only [fmt_indent, h2, String.append_empty]
  · refine ⟨String.mk (splitFirstColon val.data).1, ":" ++ String.mk r, ?_, hnc,
      Or.inr ⟨String.mk r, rfl, heq⟩⟩
    simp only [fmt_indent, h2]

/-- Claim C2: a program holding the single declaration
`Import { path: ["a","b","c"] }` renders as exactly one line: the muted
indentation guide (empty at depth 0), the bold text `Import`, `": a.b.c"`,
and a trailing newline. -/
theorem C2_import_single_line :
    (print_program ⟨0, 0, 0⟩ ⟨[.Import ["a", "b", "c"]]⟩).1 =
      ANSI_GRAY ++ guides 0 ++ ANSI_RESET ++ ANSI_BOLD ++ "Import" ++ ANSI_RESET ++ ": a.b.c\n" := by
  decide

/-- Claim C3: a rendered `Function` declaration consists, in order, of its
header, the `Parameters:` block with one `"- {name}: {type}"` line per
parameter in declared order, the `Return Type:` line, and the `"Body: "`
segment followed immediately — at the same depth, not in a new indented
block — by the rendered body expression. -/
theorem C3_function_section_order (p : ASTPrinter) (name : String)
    (params : List FunctionParameter) (generic_args : List String) (return_type : Ty)
    (body : Expression) :
    (print_declaration p (.Function name params generic_args return_type body)).1 =
      fmt_indent p.indent ("Function: " ++ name ++ "\n") ++
      fmt_indent (p.indent + 1) "Parameters:\n" ++
      paramLines (p.indent + 1) params ++
      fmt_indent (p.indent + 1)
        ("Return Type: " ++ typeString (p.indent + 1) return_type ++ "\n") ++
      fmt_indent (p.indent + 1) "Body: " ++
      exprString (p.indent + 1) body := by
  simp only [print_declaration]
  rw [print_params_eq_paramLines, print_type_str, print_expression_str,
    (print_type_state (print_params (incIndent p) params).2 return_type).1,
    (print_params_state (incIndent p) params).1]
  simp [incIndent]

/-- Claim C4 (counterexample): `Type::Array` does not render inline as
`"Array of {element}"`: the printed text begins with a line break, then the
indentation guide, then the bold `"Array of "` segment, then the element. -/
theorem C4_counterexample :
    (print_type ⟨0, 0, 0⟩ (Ty.Array Ty.I32)).1 ≠ "Array of " ++ (print_type ⟨1, 0, 0⟩ Ty.I32).1 ∧
    (print_type ⟨0, 0, 0⟩ (Ty.Array Ty.I32)).1 =
      "\n" ++ fmt_indent 0 "Array of " ++ (print_type ⟨1, 0, 0⟩ Ty.I32).1 :=
  ⟨by decide, by decide⟩

/-- Claim C4 (amended): a `Type::Array(T)` occurrence renders as a line
break, then the `fmt_indent` fragment for `"Array of "` at the current depth,
then the rendering of `T` at one greater depth — a fresh indented line, not
an inline continuation. -/
theorem C4_amended_array_newline (ind : Nat) (t : Ty) :
    typeString ind (Ty.Array t) = "\n" ++ fmt_indent ind "Array of " ++ typeString (ind + 1) t := by
  simp only [typeString, print_type]
  rw [print_type_str (incIndent ⟨ind, 0, 0⟩) t]
  simp [incIndent, typeString]

/-- Claim C5: over one `print_program` call the number of depth-counter
increments equals the number of decrements, the counter is zero after the
call returns (it is zero before the traversal by the reset that
`print_program` performs first), and a further top-level call on the used
printer yields the same output as on any fresh printer. -/
theorem C5_depth_symmetry (p q : ASTPrinter) (prog prog2 : Program) :
    (print_program p prog).2.indent = 0 ∧
    (print_program p prog).2.incs + p.decs = (print_program p prog).2.decs + p.incs ∧
    (print_program (print_program p prog).2 prog2).1 = (print_program q prog2).1 := by
  refine ⟨?_, ?_, ?_⟩
  · have h := (print_declarations_state { p with indent := 0 } prog.declarations).1
    simpa [print_program] using h
  · have h := (print_declarations_state { p with indent := 0 } prog.declarations).2
    simpa [print_program] using h
  · simp only [print_program]
    exact print_declarations_congr prog2.declarations _ _ rfl

/-- Claim C6: for any fixed program, two calls to `print_program` — on
printers in arbitrary states — yield identical strings: the output depends
only on the input tree. -/
theorem C6_determinism (p q : ASTPrinter) (prog : Program) :
    (print_program p prog).1 = (print_program q prog).1 := by
  simp only [print_program]
  exact print_declarations_congr prog.declarations _ _ rfl

/-- Claim C7: a `Statement::Expression` rendering appends a `"Result: true"`
line after its expression rendering exactly when the `result` flag is true,
and omits it when the flag is false. -/
theorem C7_result_flag (p : ASTPrinter) (e : Expression) :
    (print_statement p (.Expression e true)).1 =
      fmt_indent p.indent "Expression:\n" ++ exprString (p.indent + 1) e ++
        fmt_indent (p.indent + 1) "Result: true\n" ∧
    (print_statement p (.Expression e false)).1 =
      fmt_indent p.indent "Expression:\n" ++ exprString (p.indent + 1) e := by
  constructor
  · simp only [print_statement]
    rw [print_expression_str (incIndent p) e, (print_expression_state (incIndent p) e).1]
    simp [incIndent]
  · simp only [print_statement]
    rw [print_expression_str (incIndent p) e]
    simp [incIndent]

/-- Claim C8: a `TypeDeclaration` with an empty generic-parameter list omits
the `Generic Arguments:` block entirely, and with a non-empty list the block
is present with one `"- {name}"` line per parameter. -/
theorem C8_generic_arguments (p : ASTPrinter) (name : String) (alias_ : Ty)
    (g : String) (gs : List String) :
    (print_declaration p (.TypeDeclaration name [] alias_)).1 =
      fmt_indent p.indent ("Type Declaration: " ++ name ++ "\n") ++
        fmt_indent (p.indent + 1) ("Alias: " ++ typeString (p.indent + 1) alias_ ++ "\n") ∧
    (print_declaration p (.TypeDeclaration name (g :: gs) alias_)).1 =
      fmt_indent p.indent ("Type Declaration: " ++ name ++ "\n") ++
        fmt_indent (p.indent + 1) ("Alias: " ++ typeString (p.indent + 1) alias_ ++ "\n") ++
        fmt_indent (p.indent + 1) "Generic Arguments:\n" ++
        generic_arg_lines (p.indent + 1) (g :: gs) := by
  constructor
  · simp only [print_declaration]
    rw [print_type_str (incIndent p) alias_]
    simp [incIndent]
  · simp only [print_declaration]
    rw [print_type_str (incIndent p) alias_, (print_type_state (incIndent p) alias_).1]
    simp [incIndent, String.append_assoc]

/-- Claim C9: the output of `print_program` is independent of the
`ExpressionId` values attached to `Variable` and `Assignment` nodes — two
programs equal after erasing ids render identically — and both node kinds
print the bound name only. -/
theorem C9_expression_id_independence :
    (∀ (p : ASTPrinter) (P Q : Program), eraseIdsProgram P = eraseIdsProgram Q →
      (print_program p P).1 = (print_program p Q).1) ∧
    (∀ (p : ASTPrinter) (n : String) (i : ExpressionId),
      (print_expression p (.Variable n i)).1 =
        fmt_indent p.indent ("Variable: " ++ n ++ "\n")) ∧
    (∀ (p : ASTPrinter) (n : String) (v : Expression) (i : ExpressionId),
      (print_expression p (.Assignment n v i)).1 =
        fmt_indent p.indent "Assignment:\n" ++
        fmt_indent (p.indent + 1) ("Variable: " ++ n ++ "\n") ++
        fmt_indent (p.indent + 1) "Value:\n" ++
        exprString (p.indent + 1) v) := by
  refine ⟨?_, ?_, ?_⟩
  · intro p P Q h
    rw [← print_program_eraseIds p P, ← print_program_eraseIds p Q, h]
  · intro p n i
    simp only [print_expression]
  · intro p n v i
    simp only [print_expression]
    rw [print_expression_str (incIndent p) v]
    simp [incIndent]

/-- A pair of programs that differ only in an `ExpressionId` value. -/
def c9P : Program := ⟨[.Function "f" [] [] .Nil (.Variable "x" ⟨1⟩)]⟩

/-- The same program as `c9P`, with a different `ExpressionId` value. -/
def c9Q : Program := ⟨[.Function "f" [] [] .Nil (.Variable "x" ⟨2⟩)]⟩

/-- Witness for C9: the two id-variants of a concrete program render to the
same string. -/
theorem C9_witness : (print_program ⟨0, 0, 0⟩ c9P).1 = (print_program ⟨0, 0, 0⟩ c9Q).1 :=
  C9_expression_id_independence.1 ⟨0, 0, 0⟩ c9P c9Q (by rfl)

/-- Claim C10: the output of `print_program` is independent of the
generic-parameter name lists of `Function` and `Struct` declarations — two
programs equal after emptying those lists render identically, because the
printer's `Function` and `Struct` cases never read `generic_args`. -/
theorem C10_generic_args_independence (p : ASTPrinter) (P Q : Program)
    (h : eraseGenProgram P = eraseGenProgram Q) :
    (print_program p P).1 = (print_program p Q).1 := by
  rw [← print_program_eraseGen p P, ← print_program_eraseGen p Q, h]

/-- A program with non-empty generic-parameter lists on a function and a
struct. -/
def c10P : Program :=
  ⟨[.Function "f" [] ["T"] .Nil (.BooleanLiteral true), .Struct "S" [] ["U"]]⟩

/-- The same program as `c10P` with different generic-parameter lists. -/
def c10Q : Program :=
  ⟨[.Function "f" [] [] .Nil (.BooleanLiteral true), .Struct "S" [] ["V", "W"]]⟩

/-- Witness for C10: the two generic-list variants of a concrete program
render to the same string. -/
theorem C10_witness : (print_program ⟨0, 0, 0⟩ c10P).1 = (print_program ⟨0, 0, 0⟩ c10Q).1 :=
  C10_generic_args_independence ⟨0, 0, 0⟩ c10P c10Q (by rfl)

end Vixen
